import Mathlib

/-!
# Verification of the OKVIS reprojection-error core

Shallow embedding of:
* the `ReprojectionError` cost-function declarations
  (`src/okvis_ceres/include/okvis/ceres/ReprojectionError.hpp`),
* the `okvis::timing` timer registry (`src/unnamed/part_000`),
* the pose manifold parameterization and the reprojection-error evaluation
  pipeline, whose implementation files are not part of the sources and are
  therefore modelled from the specification.
-/

namespace Okvis

/-! ## Timer registry (`okvis::timing`, from `src/unnamed/part_000`)

A timer is its list of recorded durations (the boost accumulator of
`TimerMapValue`, reduced to the samples it accumulates); the registry holds
the timer list `m_timers` and the tag map `m_tagMap` from tag to handle.
Failed `OKVIS_ASSERT_TRUE(TimerException, …)` checks are modelled as
`Except.error` with the assertion's message. -/

/-- The durations (in seconds) accumulated for one timer
(`TimerMapValue::m_acc`). Seconds are modelled as rationals. -/
def TimerMapValue := List ℚ

instance : Inhabited TimerMapValue := ⟨([] : List ℚ)⟩

/-- The state of the `Timing` singleton: `m_timers` and `m_tagMap`. -/
structure TimingState where
  m_timers : List (List ℚ)
  m_tagMap : List (String × Nat)
deriving DecidableEq, Repr

/-- The registry before any handle is requested. -/
def TimingState.empty : TimingState := ⟨[], []⟩

/-- `Timing::getHandle(tag)`: look the tag up; if absent, register a fresh
timer whose handle is the current number of timers and record the tag. -/
def getHandle (s : TimingState) (tag : String) : Nat × TimingState :=
  match s.m_tagMap.find? (fun p => p.1 == tag) with
  | some p => (p.2, s)
  | none =>
      let handle := s.m_timers.length
      (handle, ⟨s.m_timers ++ [[]], s.m_tagMap ++ [(tag, handle)]⟩)

/-- `Timing::getTag(handle)`: linear search of `m_tagMap` for the handle;
the `OKVIS_ASSERT_TRUE` on `found` raises `TimerException` when no entry
matches. -/
def getTag (s : TimingState) (handle : Nat) : Except String String :=
  match s.m_tagMap.find? (fun p => p.2 == handle) with
  | some p => Except.ok p.1
  | none => Except.error "Unable to find the tag associated with handle"

/-- `Timing::getTotalSeconds(handle)`: bounds-checked sum of the samples. -/
def getTotalSeconds (s : TimingState) (handle : Nat) : Except String ℚ :=
  if h : handle < s.m_timers.length then
    Except.ok ((s.m_timers.get ⟨handle, h⟩).sum)
  else Except.error "Handle is out of range"

/-- `Timing::getMeanSeconds(handle)`: bounds-checked mean of the samples. -/
def getMeanSeconds (s : TimingState) (handle : Nat) : Except String ℚ :=
  if h : handle < s.m_timers.length then
    Except.ok ((s.m_timers.get ⟨handle, h⟩).sum / (s.m_timers.get ⟨handle, h⟩).length)
  else Except.error "Handle is out of range"

/-- `Timing::getNumSamples(handle)`: bounds-checked sample count. -/
def getNumSamples (s : TimingState) (handle : Nat) : Except String Nat :=
  if h : handle < s.m_timers.length then
    Except.ok (s.m_timers.get ⟨handle, h⟩).length
  else Except.error "Handle is out of range"

/-- `Timing::getMinSeconds(handle)`: bounds-checked minimum sample. -/
def getMinSeconds (s : TimingState) (handle : Nat) : Except String ℚ :=
  if h : handle < s.m_timers.length then
    Except.ok ((s.m_timers.get ⟨handle, h⟩).foldr min 0)
  else Except.error "Handle is out of range"

/-- A `Timer` object: `m_timing` and `m_handle`. -/
structure TimerObj where
  m_timing : Bool
  m_handle : Nat
deriving DecidableEq, Repr

/-- `Timer::Timer(size_t handle, bool constructStopped)`: asserts
`handle < Timing::instance().m_timers.size()`, raising `TimerException`
otherwise (the clock start is irrelevant to the registry state). -/
def timerCtorFromHandle (s : TimingState) (handle : Nat) (constructStopped : Bool) :
    Except String TimerObj :=
  if handle < s.m_timers.length then
    Except.ok ⟨!constructStopped, handle⟩
  else Except.error "The handle is invalid"

/-- Registry well-formedness: every handle recorded in `m_tagMap` indexes an
existing timer. It holds for the empty registry and is preserved by
`getHandle`, the only operation that registers handles. -/
def TimingWF (s : TimingState) : Prop :=
  ∀ p ∈ s.m_tagMap, p.2 < s.m_timers.length

instance (s : TimingState) : Decidable (TimingWF s) := by
  unfold TimingWF; infer_instance

theorem timingWF_empty : TimingWF TimingState.empty := by
  intro p hp; simp [TimingState.empty] at hp

theorem timingWF_getHandle (s : TimingState) (tag : String) (h : TimingWF s) :
    TimingWF (getHandle s tag).2 := by
  unfold getHandle
  cases hf : s.m_tagMap.find? (fun p => p.1 == tag) with
  | some p => exact h
  | none =>
      intro p hp
      simp only [List.mem_append, List.mem_singleton] at hp
      rcases hp with hp | hp
      · have := h p hp
        simp only [List.length_append, List.length_singleton]
        omega
      · subst hp
        simp only [List.length_append, List.length_singleton]
        omega

/-- C10: In a well-formed registry, every lookup that names a nonexistent
timer fails at once: for every handle at or beyond the number of registered
timers, `Timing::getTag`, the handle-based statistics queries
(`getTotalSeconds`, `getMeanSeconds`, `getNumSamples`) and the handle-based
`Timer` constructor all raise a `TimerException` (modelled as
`Except.error`) instead of returning a value. -/
theorem timing_invalid_handle_errors (s : TimingState) (handle : Nat)
    (hwf : TimingWF s) (hge : s.m_timers.length ≤ handle) :
    getTag s handle = Except.error "Unable to find the tag associated with handle" ∧
    getTotalSeconds s handle = Except.error "Handle is out of range" ∧
    getMeanSeconds s handle = Except.error "Handle is out of range" ∧
    getNumSamples s handle = Except.error "Handle is out of range" ∧
    (∀ constructStopped,
      timerCtorFromHandle s handle constructStopped =
        Except.error "The handle is invalid") := by
  have hnotlt : ¬ handle < s.m_timers.length := by omega
  refine ⟨?_, ?_, ?_, ?_, ?_⟩
  · unfold getTag
    have hfind : s.m_tagMap.find? (fun p => p.2 == handle) = none := by
      apply List.find?_eq_none.mpr
      intro p hp
      have := hwf p hp
      simp only [beq_iff_eq]
      omega
    rw [hfind]
  · unfold getTotalSeconds; rw [dif_neg hnotlt]
  · unfold getMeanSeconds; rw [dif_neg hnotlt]
  · unfold getNumSamples; rw [dif_neg hnotlt]
  · intro c; unfold timerCtorFromHandle; rw [if_neg hnotlt]

/-- Witness for C10: the registry after registering one tag has one timer;
handle 3 is out of range, and every lookup by handle 3 fails. -/
theorem timing_invalid_handle_errors_witness :
    TimingWF (getHandle TimingState.empty "frame").2 ∧
    (getHandle TimingState.empty "frame").2.m_timers.length ≤ 3 ∧
    getTag (getHandle TimingState.empty "frame").2 3 =
      Except.error "Unable to find the tag associated with handle" := by
  have h1 : TimingWF (getHandle TimingState.empty "frame").2 := by decide
  have h2 : (getHandle TimingState.empty "frame").2.m_timers.length ≤ 3 := by decide
  exact ⟨h1, h2, (timing_invalid_handle_errors _ 3 h1 h2).1⟩

end Okvis

/-! ## Pose manifold parameterization -/

namespace Okvis

/-- A 3-vector of reals. -/
structure V3 where
  x : ℝ
  y : ℝ
  z : ℝ

theorem V3_eq_components (a b : V3) : a = b ↔ a.x = b.x ∧ a.y = b.y ∧ a.z = b.z := by
  constructor
  · rintro rfl; exact ⟨rfl, rfl, rfl⟩
  · rcases a with ⟨ax, ay, az⟩; rcases b with ⟨bx, by', bz⟩
    rintro ⟨h1, h2, h3⟩; simp_all

/-- Euclidean norm of a 3-vector. -/
noncomputable def vnorm (v : V3) : ℝ := Real.sqrt (v.x ^ 2 + v.y ^ 2 + v.z ^ 2)

/-- Componentwise sum. -/
def vadd (a b : V3) : V3 := ⟨a.x + b.x, a.y + b.y, a.z + b.z⟩

/-- Componentwise difference. -/
def vsub (a b : V3) : V3 := ⟨a.x - b.x, a.y - b.y, a.z - b.z⟩

/-- The zero 3-vector. -/
def v3zero : V3 := ⟨0, 0, 0⟩

/-- Norm of a quaternion, as the square root of `Quaternion.normSq`. -/
noncomputable def qnorm (q : Quaternion ℝ) : ℝ := Real.sqrt (Quaternion.normSq q)

/-- Quaternion renormalization, `q / ‖q‖`. -/
noncomputable def normalizeQ (q : Quaternion ℝ) : Quaternion ℝ := (qnorm q)⁻¹ • q

/-- Unit-quaternion exponential map of a rotation vector: the quaternion with
scalar part `cos(‖φ‖/2)` and vector part `sin(‖φ‖/2) · φ/‖φ‖` (zero vector
part at `φ = 0`, where the division-by-zero convention yields `0`). -/
noncomputable def expQ (φ : V3) : Quaternion ℝ :=
  ⟨Real.cos (vnorm φ / 2),
   Real.sin (vnorm φ / 2) / vnorm φ * φ.x,
   Real.sin (vnorm φ / 2) / vnorm φ * φ.y,
   Real.sin (vnorm φ / 2) / vnorm φ * φ.z⟩

/-- Logarithm map inverting `expQ` on small rotations: rotation angle
`2·arccos(re)` about the normalized vector part (zero at the identity
quaternion, by the division-by-zero convention). -/
noncomputable def logQ (q : Quaternion ℝ) : V3 :=
  ⟨2 * Real.arccos q.re / Real.sqrt (q.imI ^ 2 + q.imJ ^ 2 + q.imK ^ 2) * q.imI,
   2 * Real.arccos q.re / Real.sqrt (q.imI ^ 2 + q.imJ ^ 2 + q.imK ^ 2) * q.imJ,
   2 * Real.arccos q.re / Real.sqrt (q.imI ^ 2 + q.imJ ^ 2 + q.imK ^ 2) * q.imK⟩

/-- A pose stored as 7 numbers: translation 3-vector and quaternion. -/
structure Pose where
  r : V3
  q : Quaternion ℝ

/-- A minimal 6-dimensional tangent-space perturbation: 3 translation, 3
rotation. -/
structure Delta6 where
  dr : V3
  dphi : V3

/-- Modelled from the spec: `PoseLocalParameterization::plus` (implementation
file not among the sources): applies the perturbation via quaternion
multiplication by the exponential map of the rotational part and additive
update of translation, renormalizing the quaternion afterward. -/
noncomputable def posePlus (T : Pose) (δ : Delta6) : Pose :=
  ⟨vadd T.r δ.dr, normalizeQ (expQ δ.dphi * T.q)⟩

/-- Modelled from the spec: `PoseLocalParameterization::minus` (implementation
file not among the sources): the inverse operation, the 6-vector whose `plus`
applied to `T_b` yields `T_a` — translation difference and logarithm map of
the relative quaternion. -/
noncomputable def poseMinus (Ta Tb : Pose) : Delta6 :=
  ⟨vsub Ta.r Tb.r, logQ (Ta.q * Tb.q⁻¹)⟩

theorem vnorm_nonneg (v : V3) : 0 ≤ vnorm v := Real.sqrt_nonneg _

theorem vnorm_eq_zero_iff (v : V3) : vnorm v = 0 ↔ v = v3zero := by
  unfold vnorm v3zero
  rw [Real.sqrt_eq_zero']
  constructor
  · intro h
    have hx : v.x = 0 := by nlinarith [sq_nonneg v.x, sq_nonneg v.y, sq_nonneg v.z]
    have hy : v.y = 0 := by nlinarith [sq_nonneg v.x, sq_nonneg v.y, sq_nonneg v.z]
    have hz : v.z = 0 := by nlinarith [sq_nonneg v.x, sq_nonneg v.y, sq_nonneg v.z]
    rw [V3_eq_components]
    exact ⟨hx, hy, hz⟩
  · rintro rfl; norm_num

theorem vnorm_sq (v : V3) : vnorm v ^ 2 = v.x ^ 2 + v.y ^ 2 + v.z ^ 2 :=
  Real.sq_sqrt (by positivity)

theorem qnorm_nonneg (q : Quaternion ℝ) : 0 ≤ qnorm q := Real.sqrt_nonneg _

theorem qnorm_eq_zero_iff (q : Quaternion ℝ) : qnorm q = 0 ↔ q = 0 := by
  unfold qnorm
  rw [Real.sqrt_eq_zero']
  constructor
  · intro h
    have := Quaternion.normSq_nonneg (a := q)
    have hz : Quaternion.normSq q = 0 := le_antisymm h this
    exact Quaternion.normSq_eq_zero.mp hz
  · rintro rfl; simp

theorem qnorm_mul (a b : Quaternion ℝ) : qnorm (a * b) = qnorm a * qnorm b := by
  unfold qnorm
  rw [map_mul, Real.sqrt_mul (Quaternion.normSq_nonneg)]

theorem expQ_re (φ : V3) : (expQ φ).re = Real.cos (vnorm φ / 2) := rfl

theorem expQ_imI (φ : V3) :
    (expQ φ).imI = Real.sin (vnorm φ / 2) / vnorm φ * φ.x := rfl

theorem expQ_imJ (φ : V3) :
    (expQ φ).imJ = Real.sin (vnorm φ / 2) / vnorm φ * φ.y := rfl

theorem expQ_imK (φ : V3) :
    (expQ φ).imK = Real.sin (vnorm φ / 2) / vnorm φ * φ.z := rfl

/-- The squared vector part of `expQ φ` is `sin²(‖φ‖/2)`. -/
theorem expQ_im_sq (φ : V3) (hne : vnorm φ ≠ 0) :
    (expQ φ).imI ^ 2 + (expQ φ).imJ ^ 2 + (expQ φ).imK ^ 2 =
      Real.sin (vnorm φ / 2) ^ 2 := by
  rw [expQ_imI, expQ_imJ, expQ_imK]
  have hsq : φ.x ^ 2 + φ.y ^ 2 + φ.z ^ 2 = vnorm φ ^ 2 := (vnorm_sq φ).symm
  field_simp
  nlinarith [hsq]

/-- The exponential map lands on the unit sphere. -/
theorem qnorm_expQ (φ : V3) : qnorm (expQ φ) = 1 := by
  unfold qnorm
  rw [Quaternion.normSq_def']
  rcases eq_or_ne (vnorm φ) 0 with h0 | hne
  · rw [expQ_re, expQ_imI, expQ_imJ, expQ_imK, h0]
    simp
  · rw [expQ_re]
    have him := expQ_im_sq φ hne
    have hone : Real.cos (vnorm φ / 2) ^ 2 + (expQ φ).imI ^ 2 +
        (expQ φ).imJ ^ 2 + (expQ φ).imK ^ 2 = 1 := by
      have := Real.sin_sq_add_cos_sq (vnorm φ / 2)
      nlinarith [him]
    rw [hone, Real.sqrt_one]

/-- The logarithm map inverts the exponential map on rotations of angle
below `π`. -/
theorem logQ_expQ (φ : V3) (hsmall : vnorm φ < Real.pi) : logQ (expQ φ) = φ := by
  rcases eq_or_ne (vnorm φ) 0 with h0 | hne
  · have hz : φ = v3zero := (vnorm_eq_zero_iff φ).mp h0
    subst hz
    unfold logQ
    rw [V3_eq_components]
    refine ⟨?_, ?_, ?_⟩ <;>
      · rw [expQ_imI, expQ_imJ, expQ_imK]
        show _ * _ = (0 : ℝ)
        simp [v3zero]
  · have hpos : 0 < vnorm φ := lt_of_le_of_ne (vnorm_nonneg φ) (Ne.symm hne)
    have hhalf_pos : 0 < vnorm φ / 2 := by linarith
    have hhalf_lt : vnorm φ / 2 < Real.pi := by
      have := Real.pi_pos; linarith
    have hsin : 0 < Real.sin (vnorm φ / 2) :=
      Real.sin_pos_of_pos_of_lt_pi hhalf_pos hhalf_lt
    have himnorm : Real.sqrt ((expQ φ).imI ^ 2 + (expQ φ).imJ ^ 2 +
        (expQ φ).imK ^ 2) = Real.sin (vnorm φ / 2) := by
      rw [expQ_im_sq φ hne, Real.sqrt_sq hsin.le]
    have harc : Real.arccos ((expQ φ).re) = vnorm φ / 2 := by
      rw [expQ_re]
      exact Real.arccos_cos hhalf_pos.le (by linarith)
    unfold logQ
    rw [V3_eq_components]
    rw [himnorm, harc, expQ_imI, expQ_imJ, expQ_imK]
    refine ⟨?_, ?_, ?_⟩ <;>
      · field_simp
        ring

/-- Renormalizing a nonzero quaternion yields a unit quaternion. -/
theorem qnorm_normalizeQ (v : Quaternion ℝ) (hv : v ≠ 0) :
    qnorm (normalizeQ v) = 1 := by
  have hqn : qnorm v ≠ 0 := fun h => hv ((qnorm_eq_zero_iff v).mp h)
  unfold normalizeQ
  unfold qnorm
  rw [Quaternion.normSq_smul, Real.sqrt_mul (sq_nonneg _), Real.sqrt_sq_eq_abs,
    abs_of_nonneg (inv_nonneg.mpr (Real.sqrt_nonneg _))]
  exact inv_mul_cancel₀ hqn

/-- C2: Round-trip law of the pose manifold parameterization: for every pose
whose quaternion part has unit norm and every 6-vector delta whose rotational
part is small (angle below `π`),
`minus(plus(pose, delta), pose) = delta` (exactly, in the real-arithmetic
model). -/
theorem poseParameterization_plus_minus_roundtrip (T : Pose) (δ : Delta6)
    (hq : qnorm T.q = 1) (hsmall : vnorm δ.dphi < Real.pi) :
    poseMinus (posePlus T δ) T = δ := by
  have hqne : T.q ≠ 0 := by
    intro h
    have h0 : qnorm T.q = 0 := (qnorm_eq_zero_iff T.q).mpr h
    rw [hq] at h0
    norm_num at h0
  have hunit : qnorm (expQ δ.dphi * T.q) = 1 := by
    rw [qnorm_mul, qnorm_expQ, hq, one_mul]
  have hnorm : normalizeQ (expQ δ.dphi * T.q) = expQ δ.dphi * T.q := by
    unfold normalizeQ
    rw [hunit, inv_one, one_smul]
  have htr : vsub (vadd T.r δ.dr) T.r = δ.dr := by
    rw [V3_eq_components]
    unfold vadd vsub
    refine ⟨by ring, by ring, by ring⟩
  show (⟨vsub (vadd T.r δ.dr) T.r,
      logQ (normalizeQ (expQ δ.dphi * T.q) * T.q⁻¹)⟩ : Delta6) = δ
  rw [htr, hnorm, mul_assoc, mul_inv_cancel₀ hqne, mul_one, logQ_expQ _ hsmall]

/-- Witness for C2: at the identity pose (unit quaternion) and the delta with
translation `(1,2,3)` and zero rotation (norm `0 < π`), the round trip
returns the delta. -/
theorem poseParameterization_plus_minus_roundtrip_witness :
    qnorm (1 : Quaternion ℝ) = 1 ∧ vnorm v3zero < Real.pi ∧
    poseMinus (posePlus ⟨v3zero, 1⟩ ⟨⟨1, 2, 3⟩, v3zero⟩) ⟨v3zero, 1⟩ =
      ⟨⟨1, 2, 3⟩, v3zero⟩ := by
  have h1 : qnorm (1 : Quaternion ℝ) = 1 := by
    unfold qnorm
    rw [map_one, Real.sqrt_one]
  have h2 : vnorm v3zero < Real.pi := by
    have h0 : vnorm v3zero = 0 := (vnorm_eq_zero_iff v3zero).mpr rfl
    rw [h0]
    exact Real.pi_pos
  exact ⟨h1, h2, poseParameterization_plus_minus_roundtrip ⟨v3zero, 1⟩
    ⟨⟨1, 2, 3⟩, v3zero⟩ h1 h2⟩

/-- C3: For every input pose with nonzero quaternion part — in particular one
whose norm has drifted away from 1 — and every 6-vector delta, the quaternion
component of the pose returned by `plus` has unit norm within `1e-12` (the
renormalization step makes it exactly 1 in the real-arithmetic model). -/
theorem posePlus_quaternion_unit_norm (T : Pose) (δ : Delta6)
    (hq : T.q ≠ 0) :
    |qnorm (posePlus T δ).q - 1| ≤ 1 / 10 ^ 12 := by
  have hexp : expQ δ.dphi ≠ 0 := by
    intro h
    have h1 := qnorm_expQ δ.dphi
    rw [h, (qnorm_eq_zero_iff 0).mpr rfl] at h1
    norm_num at h1
  have hne : expQ δ.dphi * T.q ≠ 0 := mul_ne_zero hexp hq
  have hunit : qnorm (normalizeQ (expQ δ.dphi * T.q)) = 1 :=
    qnorm_normalizeQ _ hne
  show |qnorm (normalizeQ (expQ δ.dphi * T.q)) - 1| ≤ _
  rw [hunit]
  norm_num

/-- Witness for C3: a pose whose quaternion has drifted to norm 2 (the
quaternion `2`, which is nonzero) still yields a unit-norm quaternion after
`plus` with the zero delta. -/
theorem posePlus_quaternion_unit_norm_witness :
    ((⟨2, 0, 0, 0⟩ : Quaternion ℝ) ≠ 0) ∧
    |qnorm (posePlus ⟨v3zero, (⟨2, 0, 0, 0⟩ : Quaternion ℝ)⟩
      ⟨v3zero, v3zero⟩).q - 1| ≤ 1 / 10 ^ 12 := by
  have h2 : (⟨2, 0, 0, 0⟩ : Quaternion ℝ) ≠ 0 := by
    intro h
    have hre : (2 : ℝ) = 0 := congrArg Quaternion.re h
    norm_num at hre
  exact ⟨h2, posePlus_quaternion_unit_norm ⟨v3zero, (⟨2, 0, 0, 0⟩ : Quaternion ℝ)⟩
    ⟨v3zero, v3zero⟩ h2⟩

end Okvis

/-! ## Information weighting and the reprojection-error evaluation pipeline

The implementation header `implementation/ReprojectionError.hpp` included at
the bottom of `ReprojectionError.hpp` is not among the sources; the bodies of
the constructor, `setInformation`, `Evaluate` and
`EvaluateWithMinimalJacobians` are modelled from the specification
(§4.3 algorithm, §4.4 information weighting, §7 error handling). -/

namespace Okvis

/-- A 2-vector (pixel coordinates / residual). -/
abbrev Vec2 : Type := ℝ × ℝ

/-- A homogeneous 4-vector (landmark world position). -/
structure V4 where
  x : ℝ
  y : ℝ
  z : ℝ
  w : ℝ

/-- A 2×2 real matrix (information / covariance / square-root information). -/
structure M2 where
  m00 : ℝ
  m01 : ℝ
  m10 : ℝ
  m11 : ℝ

theorem M2_eq_components (A B : M2) :
    A = B ↔ A.m00 = B.m00 ∧ A.m01 = B.m01 ∧ A.m10 = B.m10 ∧ A.m11 = B.m11 := by
  constructor
  · rintro rfl; exact ⟨rfl, rfl, rfl, rfl⟩
  · rcases A with ⟨a, b, c, d⟩; rcases B with ⟨a', b', c', d'⟩
    rintro ⟨h1, h2, h3, h4⟩; simp_all

/-- 2×2 identity. -/
def id2 : M2 := ⟨1, 0, 0, 1⟩

/-- 2×2 matrix product. -/
def mul2 (A B : M2) : M2 :=
  ⟨A.m00 * B.m00 + A.m01 * B.m10, A.m00 * B.m01 + A.m01 * B.m11,
   A.m10 * B.m00 + A.m11 * B.m10, A.m10 * B.m01 + A.m11 * B.m11⟩

/-- 2×2 transpose. -/
def transpose2 (A : M2) : M2 := ⟨A.m00, A.m10, A.m01, A.m11⟩

/-- 2×2 determinant. -/
def det2 (A : M2) : ℝ := A.m00 * A.m11 - A.m01 * A.m10

/-- 2×2 inverse (adjugate over determinant). -/
noncomputable def inv2 (A : M2) : M2 :=
  ⟨A.m11 / det2 A, -A.m01 / det2 A, -A.m10 / det2 A, A.m00 / det2 A⟩

/-- Apply a 2×2 matrix to a 2-vector. -/
def app2 (A : M2) (v : Vec2) : Vec2 :=
  (A.m00 * v.1 + A.m01 * v.2, A.m10 * v.1 + A.m11 * v.2)

/-- Symmetric positive semi-definiteness of a 2×2 matrix. -/
def isPSD2 (A : M2) : Prop :=
  A.m01 = A.m10 ∧ 0 ≤ A.m00 ∧ 0 ≤ A.m11 ∧ 0 ≤ det2 A

/-- Upper-triangular Cholesky factor `S` of a symmetric PSD 2×2 matrix `M`
(`transpose2 S * S = M`), matching the eagerly computed square-root
information (`lltOfInformation.matrixL().transpose()`). -/
noncomputable def chol2 (A : M2) : M2 :=
  ⟨Real.sqrt A.m00, A.m01 / Real.sqrt A.m00,
   0, Real.sqrt (A.m11 - A.m01 ^ 2 / A.m00)⟩

/-- A 3×3 real matrix. -/
structure M3 where
  a00 : ℝ
  a01 : ℝ
  a02 : ℝ
  a10 : ℝ
  a11 : ℝ
  a12 : ℝ
  a20 : ℝ
  a21 : ℝ
  a22 : ℝ

/-- 3×3 matrix times 3-vector. -/
def m3mulv (A : M3) (v : V3) : V3 :=
  ⟨A.a00 * v.x + A.a01 * v.y + A.a02 * v.z,
   A.a10 * v.x + A.a11 * v.y + A.a12 * v.z,
   A.a20 * v.x + A.a21 * v.y + A.a22 * v.z⟩

/-- 3×3 transpose. -/
def m3transpose (A : M3) : M3 :=
  ⟨A.a00, A.a10, A.a20, A.a01, A.a11, A.a21, A.a02, A.a12, A.a22⟩

/-- 3×3 matrix product. -/
def m3mul (A B : M3) : M3 :=
  ⟨A.a00 * B.a00 + A.a01 * B.a10 + A.a02 * B.a20,
   A.a00 * B.a01 + A.a01 * B.a11 + A.a02 * B.a21,
   A.a00 * B.a02 + A.a01 * B.a12 + A.a02 * B.a22,
   A.a10 * B.a00 + A.a11 * B.a10 + A.a12 * B.a20,
   A.a10 * B.a01 + A.a11 * B.a11 + A.a12 * B.a21,
   A.a10 * B.a02 + A.a11 * B.a12 + A.a12 * B.a22,
   A.a20 * B.a00 + A.a21 * B.a10 + A.a22 * B.a20,
   A.a20 * B.a01 + A.a21 * B.a11 + A.a22 * B.a21,
   A.a20 * B.a02 + A.a21 * B.a12 + A.a22 * B.a22⟩

/-- Skew-symmetric (cross-product) matrix of a 3-vector, the standard
rigid-body rotation-derivative identity. -/
def skew3 (v : V3) : M3 :=
  ⟨0, -v.z, v.y, v.z, 0, -v.x, -v.y, v.x, 0⟩

/-- Scalar multiple of a 3-vector. -/
def vscale (c : ℝ) (v : V3) : V3 := ⟨c * v.x, c * v.y, c * v.z⟩

/-- Entry accessor of a 3×3 matrix by row/column index. -/
def m3get (A : M3) (i j : Fin 3) : ℝ :=
  if i = 0 then (if j = 0 then A.a00 else if j = 1 then A.a01 else A.a02)
  else if i = 1 then (if j = 0 then A.a10 else if j = 1 then A.a11 else A.a12)
  else (if j = 0 then A.a20 else if j = 1 then A.a21 else A.a22)

/-- Rotation matrix of a (unit) quaternion, standard component formula. -/
def rotMat (q : Quaternion ℝ) : M3 :=
  ⟨1 - 2 * (q.imJ ^ 2 + q.imK ^ 2),
   2 * (q.imI * q.imJ - q.re * q.imK),
   2 * (q.imI * q.imK + q.re * q.imJ),
   2 * (q.imI * q.imJ + q.re * q.imK),
   1 - 2 * (q.imI ^ 2 + q.imK ^ 2),
   2 * (q.imJ * q.imK - q.re * q.imI),
   2 * (q.imI * q.imK - q.re * q.imJ),
   2 * (q.imJ * q.imK + q.re * q.imI),
   1 - 2 * (q.imI ^ 2 + q.imJ ^ 2)⟩

/-- Inverse rigid transform applied to a homogeneous point:
`(Rᵀ (p − w·t), w)`. -/
def hTransformInv (t : V3) (q : Quaternion ℝ) (hp : V4) : V4 :=
  ⟨(m3mulv (m3transpose (rotMat q)) (vsub ⟨hp.x, hp.y, hp.z⟩ (vscale hp.w t))).x,
   (m3mulv (m3transpose (rotMat q)) (vsub ⟨hp.x, hp.y, hp.z⟩ (vscale hp.w t))).y,
   (m3mulv (m3transpose (rotMat q)) (vsub ⟨hp.x, hp.y, hp.z⟩ (vscale hp.w t))).z,
   hp.w⟩

/-- The landmark expressed in the body/sensor frame: inverse transform of the
world point by the camera pose `T_WS`. -/
def sensorPoint (T_WS : Pose) (hp : V4) : V4 := hTransformInv T_WS.r T_WS.q hp

/-- The landmark expressed in the camera frame: inverse transform by the pose
then by the extrinsics `T_SC` (spec §4.3 step 1). -/
def cameraPoint (T_WS : Pose) (hp : V4) (T_SC : Pose) : V3 :=
  ⟨(hTransformInv T_SC.r T_SC.q (sensorPoint T_WS hp)).x,
   (hTransformInv T_SC.r T_SC.q (sensorPoint T_WS hp)).y,
   (hTransformInv T_SC.r T_SC.q (sensorPoint T_WS hp)).z⟩

/-- A 2×`n` Jacobian block, as a function of row and column indices. -/
abbrev Jac (n : Nat) : Type := Fin 2 → Fin n → ℝ

/-- The all-zero 2×`n` Jacobian block. -/
def zeroJac (n : Nat) : Jac n := fun _ _ => 0

/-- Modelled from the spec: a camera geometry exposes
`project(point_in_camera_frame) -> (pixel, jacobian_2x3, success_flag)`;
failure is `none`. -/
structure CameraGeometry where
  project : V3 → Option (Vec2 × Jac 3)

/-- The 2×3 pinhole projection Jacobian `∂(u,v)/∂(x,y,z)`. -/
noncomputable def pinholeJac (fu fv : ℝ) (p : V3) : Jac 3 := fun i j =>
  if i = 0 then
    (if j = 0 then fu / p.z else if j = 1 then 0 else -(fu * p.x) / p.z ^ 2)
  else
    (if j = 0 then 0 else if j = 1 then fv / p.z else -(fv * p.y) / p.z ^ 2)

/-- A deterministic reference pinhole camera (spec §6): projection succeeds
exactly on points of positive depth, returning pixel
`(fu·x/z + cu, fv·y/z + cv)` and the analytic 2×3 Jacobian. -/
noncomputable def pinholeCamera (fu fv cu cv : ℝ) : CameraGeometry :=
  ⟨fun p => if 0 < p.z then
      some ((fu * (p.x / p.z) + cu, fv * (p.y / p.z) + cv), pinholeJac fu fv p)
    else none⟩

/-- The state of a `ReprojectionError` term: measurement, shared camera
geometry, and the eagerly cached information, square-root information and
covariance matrices (fields `measurement_`, `cameraGeometry_`,
`information_`, `squareRootInformation_`, `covariance_`). -/
structure ReprojErr where
  measurement : Vec2
  cameraGeometry : CameraGeometry
  information : M2
  squareRootInformation : M2
  covariance : M2

/-- Modelled from the spec: `ReprojectionError::setInformation` (implementation
header not among the sources): stores the matrix and eagerly computes its
Cholesky square root and its inverse (covariance), cached for reuse. -/
noncomputable def setInformation (e : ReprojErr) (M : M2) : ReprojErr :=
  { e with
    information := M
    squareRootInformation := chol2 M
    covariance := inv2 M }

open scoped Classical

/-- Modelled from the spec (§4.4, §7): the symmetric-positive-semi-definite
precondition on the information matrix is a configuration error reported at
set-time, before any evaluation. -/
noncomputable def setInformationChecked (e : ReprojErr) (M : M2) :
    Except String ReprojErr :=
  if isPSD2 M then Except.ok (setInformation e M)
  else Except.error "information matrix must be symmetric positive semi-definite"

/-- Modelled from the spec: the `ReprojectionError` constructor taking camera
geometry, camera id, measurement and information; the information matrix goes
through the checked set-time path. -/
noncomputable def mkReprojectionError (cameraGeometry : CameraGeometry)
    (_cameraId : Nat) (measurement : Vec2) (information : M2) :
    Except String ReprojErr :=
  setInformationChecked ⟨measurement, cameraGeometry, id2, id2, id2⟩ information

/-- Whiten a Jacobian block: multiply by the square-root information. -/
def whitenJac {n : Nat} (S : M2) (J : Jac n) : Jac n := fun i j =>
  if i = 0 then S.m00 * J 0 j + S.m01 * J 1 j
  else S.m10 * J 0 j + S.m11 * J 1 j

/-- Chain-rule composition of a 2×3 Jacobian with a 3×`n` Jacobian. -/
def chain3 {n : Nat} (A : Jac 3) (B : Fin 3 → Fin n → ℝ) : Jac n := fun i j =>
  A i 0 * B 0 j + A i 1 * B 1 j + A i 2 * B 2 j

/-- Rotation from world to camera frame, `R_SCᵀ · R_WSᵀ`. -/
def rotCW (T_WS T_SC : Pose) : M3 :=
  m3mul (m3transpose (rotMat T_SC.q)) (m3transpose (rotMat T_WS.q))

/-- 3×4 derivative of the camera-frame point with respect to the homogeneous
landmark: columns 0–2 are `R_CW`, column 3 is
`−(R_CW t_WS + R_SCᵀ t_SC)`. -/
def dCameraPointDLandmark (T_WS T_SC : Pose) : Fin 3 → Fin 4 → ℝ := fun i j =>
  if h : (j : Nat) < 3 then m3get (rotCW T_WS T_SC) i ⟨j, h⟩
  else -(m3get (rotCW T_WS T_SC) i 0 * T_WS.r.x +
         m3get (rotCW T_WS T_SC) i 1 * T_WS.r.y +
         m3get (rotCW T_WS T_SC) i 2 * T_WS.r.z +
         m3get (m3transpose (rotMat T_SC.q)) i 0 * T_SC.r.x +
         m3get (m3transpose (rotMat T_SC.q)) i 1 * T_SC.r.y +
         m3get (m3transpose (rotMat T_SC.q)) i 2 * T_SC.r.z)

/-- 3×6 derivative of the camera-frame point with respect to the minimal pose
perturbation `[δt, δθ]`: `[−w·R_CW | R_CW·skew(p_W − w·t_WS)]`. -/
def dCameraPointDPoseMin (T_WS T_SC : Pose) (hp : V4) : Fin 3 → Fin 6 → ℝ :=
  fun i j =>
  if h : (j : Nat) < 3 then -hp.w * m3get (rotCW T_WS T_SC) i ⟨j, h⟩
  else m3get (m3mul (rotCW T_WS T_SC)
    (skew3 (vsub ⟨hp.x, hp.y, hp.z⟩ (vscale hp.w T_WS.r)))) i
    ⟨j - 3, by omega⟩

/-- 3×6 derivative of the camera-frame point with respect to the minimal
extrinsics perturbation: `[−w·R_SCᵀ | R_SCᵀ·skew(p_S − w·t_SC)]`. -/
def dCameraPointDExtrMin (T_WS T_SC : Pose) (hp : V4) : Fin 3 → Fin 6 → ℝ :=
  fun i j =>
  if h : (j : Nat) < 3 then -hp.w * m3get (m3transpose (rotMat T_SC.q)) i ⟨j, h⟩
  else m3get (m3mul (m3transpose (rotMat T_SC.q))
    (skew3 (vsub ⟨(sensorPoint T_WS hp).x, (sensorPoint T_WS hp).y,
      (sensorPoint T_WS hp).z⟩ (vscale hp.w T_SC.r)))) i
    ⟨j - 3, by omega⟩

/-- The 3×4 rotational block of the lift Jacobian relating quaternion-storage
differentials to minimal tangent differentials (spec §4.2). -/
def dThetaDq (q : Quaternion ℝ) : Fin 3 → Fin 4 → ℝ := fun i j =>
  2 * (if i = 0 then
        (if j = 0 then q.re else if j = 1 then q.imK
         else if j = 2 then -q.imJ else -q.imI)
      else if i = 1 then
        (if j = 0 then -q.imK else if j = 1 then q.re
         else if j = 2 then q.imI else -q.imJ)
      else
        (if j = 0 then q.imJ else if j = 1 then -q.imI
         else if j = 2 then q.re else -q.imK))

/-- Widen a minimal 2×6 pose Jacobian to the full 2×7 storage Jacobian:
translation columns unchanged, rotation columns composed with the lift block
of the quaternion. -/
def fullFromMinimal (Jmin : Jac 6) (q : Quaternion ℝ) : Jac 7 := fun i j =>
  if h : (j : Nat) < 3 then Jmin i ⟨j, by omega⟩
  else Jmin i 3 * dThetaDq q 0 ⟨j - 3, by omega⟩ +
       Jmin i 4 * dThetaDq q 1 ⟨j - 3, by omega⟩ +
       Jmin i 5 * dThetaDq q 2 ⟨j - 3, by omega⟩

/-- Which Jacobian blocks an evaluation call requests (a null pointer in the
C++ interface is `false`). -/
structure JacRequest where
  pose : Bool
  landmark : Bool
  extrinsics : Bool

/-- The all-null Jacobian request. -/
def noJac : JacRequest := ⟨false, false, false⟩

/-- What an evaluation writes to the caller-supplied buffers: the residual,
the requested full Jacobian blocks, the requested minimal Jacobian blocks,
and the returned success flag. -/
structure EvalOutputs where
  residual : Vec2
  jacPose : Option (Jac 7)
  jacLandmark : Option (Jac 4)
  jacExtrinsics : Option (Jac 7)
  jacPoseMin : Option (Jac 6)
  jacLandmarkMin : Option (Jac 4)
  jacExtrinsicsMin : Option (Jac 6)
  ok : Bool

/-- Modelled from the spec: `ReprojectionError::EvaluateWithMinimalJacobians`
(implementation header not among the sources). Transforms the landmark into
the camera frame, invokes the camera geometry's `project`; on failure the
residual is set to zero and every requested Jacobian block to zero (the
constraint is disabled for this iterate, no exception); on success the raw
error is the measurement minus the projected pixel, and the residual and all
requested Jacobian blocks are whitened by the cached square-root
information. -/
noncomputable def evaluateWithMinimalJacobians (e : ReprojErr) (T_WS : Pose)
    (hp : V4) (T_SC : Pose) (req reqMin : JacRequest) : EvalOutputs :=
  match e.cameraGeometry.project (cameraPoint T_WS hp T_SC) with
  | none =>
      { residual := ((0 : ℝ), (0 : ℝ)),
        jacPose := if req.pose then some (zeroJac 7) else none,
        jacLandmark := if req.landmark then some (zeroJac 4) else none,
        jacExtrinsics := if req.extrinsics then some (zeroJac 7) else none,
        jacPoseMin := if reqMin.pose then some (zeroJac 6) else none,
        jacLandmarkMin := if reqMin.landmark then some (zeroJac 4) else none,
        jacExtrinsicsMin := if reqMin.extrinsics then some (zeroJac 6) else none,
        ok := true }
  | some (px, Jp) =>
      { residual := app2 e.squareRootInformation
          (e.measurement.1 - px.1, e.measurement.2 - px.2),
        jacPose := if req.pose then
            some (whitenJac e.squareRootInformation
              (fullFromMinimal (chain3 Jp (dCameraPointDPoseMin T_WS T_SC hp))
                T_WS.q))
          else none,
        jacLandmark := if req.landmark then
            some (whitenJac e.squareRootInformation
              (chain3 Jp (dCameraPointDLandmark T_WS T_SC)))
          else none,
        jacExtrinsics := if req.extrinsics then
            some (whitenJac e.squareRootInformation
              (fullFromMinimal (chain3 Jp (dCameraPointDExtrMin T_WS T_SC hp))
                T_SC.q))
          else none,
        jacPoseMin := if reqMin.pose then
            some (whitenJac e.squareRootInformation
              (chain3 Jp (dCameraPointDPoseMin T_WS T_SC hp)))
          else none,
        jacLandmarkMin := if reqMin.landmark then
            some (whitenJac e.squareRootInformation
              (chain3 Jp (dCameraPointDLandmark T_WS T_SC)))
          else none,
        jacExtrinsicsMin := if reqMin.extrinsics then
            some (whitenJac e.squareRootInformation
              (chain3 Jp (dCameraPointDExtrMin T_WS T_SC hp)))
          else none,
        ok := true }

/-- Modelled from the spec: `ReprojectionError::Evaluate` forwards to
`EvaluateWithMinimalJacobians` with no minimal-Jacobian buffers. -/
noncomputable def evaluate (e : ReprojErr) (T_WS : Pose) (hp : V4)
    (T_SC : Pose) (req : JacRequest) : EvalOutputs :=
  evaluateWithMinimalJacobians e T_WS hp T_SC req noJac

/-- Evaluation as a state transformer: the outputs together with the error
term's fields as they stand when the `const` call returns. -/
noncomputable def evaluateFullState (e : ReprojErr) (T_WS : Pose) (hp : V4)
    (T_SC : Pose) (req reqMin : JacRequest) : EvalOutputs × ReprojErr :=
  (evaluateWithMinimalJacobians e T_WS hp T_SC req reqMin,
   ⟨e.measurement, e.cameraGeometry, e.information, e.squareRootInformation,
    e.covariance⟩)

/-- The unwhitened geometric error: measurement pixel minus projected pixel
(`none` when projection fails). -/
noncomputable def rawError (e : ReprojErr) (T_WS : Pose) (hp : V4)
    (T_SC : Pose) : Option Vec2 :=
  (e.cameraGeometry.project (cameraPoint T_WS hp T_SC)).map
    (fun pr => (e.measurement.1 - pr.1.1, e.measurement.2 - pr.1.2))

/-- The identity pose: zero translation, identity quaternion. -/
noncomputable def idPose : Pose := ⟨v3zero, 1⟩

/-- A reference error term bound to the test pinhole camera with identity
information. -/
noncomputable def testErr (measurement : Vec2) : ReprojErr :=
  ⟨measurement, pinholeCamera 1 1 0 0, id2, id2, id2⟩

/-- The reference pinhole camera reports failure on every point of
non-positive depth (behind the camera). -/
theorem pinhole_project_nonpos_depth (fu fv cu cv : ℝ) (p : V3)
    (hz : p.z ≤ 0) : (pinholeCamera fu fv cu cv).project p = none := by
  show (if 0 < p.z then _ else none) = none
  rw [if_neg (by linarith : ¬ 0 < p.z)]

/-- At identity pose and identity extrinsics, the camera-frame point is the
Euclidean part of the homogeneous landmark. -/
theorem cameraPoint_idPose (hp : V4) :
    cameraPoint idPose hp idPose = ⟨hp.x, hp.y, hp.z⟩ := by
  rw [V3_eq_components]
  unfold cameraPoint sensorPoint hTransformInv m3mulv m3transpose rotMat idPose
    vsub vscale v3zero
  norm_num

/-- The 2×2 inverse computed eagerly by `setInformation` is a genuine
two-sided inverse whenever the determinant is nonzero. -/
theorem inv2_correct (A : M2) (hd : det2 A ≠ 0) :
    mul2 A (inv2 A) = id2 ∧ mul2 (inv2 A) A = id2 := by
  unfold det2 at hd
  constructor <;>
    · rw [M2_eq_components]
      unfold mul2 inv2 id2 det2
      refine ⟨?_, ?_, ?_, ?_⟩ <;> (field_simp; ring)

/-- The eagerly computed square-root information is a Cholesky factor:
`Sᵀ S` recovers the symmetric PSD information matrix. -/
theorem chol2_correct (A : M2) (h : isPSD2 A) :
    mul2 (transpose2 (chol2 A)) (chol2 A) = A := by
  obtain ⟨hsym, h00, h11, hdet⟩ := h
  unfold det2 at hdet
  rw [← hsym] at hdet
  rcases eq_or_lt_of_le h00 with ha0 | hapos
  · have hb : A.m01 = 0 := by nlinarith [sq_nonneg A.m01]
    have hm10 : A.m10 = 0 := by rw [← hsym, hb]
    rw [M2_eq_components]
    unfold mul2 transpose2 chol2
    rw [← ha0, hb, hm10]
    norm_num [Real.sqrt_zero, Real.mul_self_sqrt h11]
  · have hsa : Real.sqrt A.m00 ≠ 0 := ne_of_gt (Real.sqrt_pos.mpr hapos)
    have hss : Real.sqrt A.m00 * Real.sqrt A.m00 = A.m00 :=
      Real.mul_self_sqrt h00
    have hb2a : 0 ≤ A.m11 - A.m01 ^ 2 / A.m00 := by
      rw [sub_nonneg, div_le_iff hapos]
      nlinarith
    have hs2 : Real.sqrt (A.m11 - A.m01 ^ 2 / A.m00) *
        Real.sqrt (A.m11 - A.m01 ^ 2 / A.m00) =
        A.m11 - A.m01 ^ 2 / A.m00 := Real.mul_self_sqrt hb2a
    rw [M2_eq_components]
    unfold mul2 transpose2 chol2
    refine ⟨?_, ?_, ?_, ?_⟩
    · rw [hss]; ring
    · field_simp
    · rw [← hsym]; field_simp
    · rw [hs2, div_mul_div_comm, hss]
      field_simp
      ring

/-- C1: Whenever the camera geometry's `project` reports failure for the
transformed landmark (in particular behind-camera points, on which the
reference pinhole camera fails by `pinhole_project_nonpos_depth`), both
`Evaluate` and `EvaluateWithMinimalJacobians` write an all-zero residual and
all-zero values into every requested Jacobian block, and return normally
(`ok = true`, no exception). -/
theorem evaluate_zero_on_projection_failure (e : ReprojErr) (T_WS : Pose)
    (hp : V4) (T_SC : Pose) (req reqMin : JacRequest)
    (hfail : e.cameraGeometry.project (cameraPoint T_WS hp T_SC) = none) :
    (evaluateWithMinimalJacobians e T_WS hp T_SC req reqMin).residual =
      ((0 : ℝ), (0 : ℝ)) ∧
    (req.pose = true →
      (evaluateWithMinimalJacobians e T_WS hp T_SC req reqMin).jacPose =
        some (zeroJac 7)) ∧
    (req.landmark = true →
      (evaluateWithMinimalJacobians e T_WS hp T_SC req reqMin).jacLandmark =
        some (zeroJac 4)) ∧
    (req.extrinsics = true →
      (evaluateWithMinimalJacobians e T_WS hp T_SC req reqMin).jacExtrinsics =
        some (zeroJac 7)) ∧
    (reqMin.pose = true →
      (evaluateWithMinimalJacobians e T_WS hp T_SC req reqMin).jacPoseMin =
        some (zeroJac 6)) ∧
    (reqMin.landmark = true →
      (evaluateWithMinimalJacobians e T_WS hp T_SC req reqMin).jacLandmarkMin =
        some (zeroJac 4)) ∧
    (reqMin.extrinsics = true →
      (evaluateWithMinimalJacobians e T_WS hp T_SC req reqMin).jacExtrinsicsMin =
        some (zeroJac 6)) ∧
    (evaluate e T_WS hp T_SC req).residual = ((0 : ℝ), (0 : ℝ)) ∧
    (req.pose = true →
      (evaluate e T_WS hp T_SC req).jacPose = some (zeroJac 7)) ∧
    (req.landmark = true →
      (evaluate e T_WS hp T_SC req).jacLandmark = some (zeroJac 4)) ∧
    (req.extrinsics = true →
      (evaluate e T_WS hp T_SC req).jacExtrinsics = some (zeroJac 7)) ∧
    (evaluateWithMinimalJacobians e T_WS hp T_SC req reqMin).ok = true ∧
    (evaluate e T_WS hp T_SC req).ok = true := by
  refine ⟨?_, ?_, ?_, ?_, ?_, ?_, ?_, ?_, ?_, ?_, ?_, ?_, ?_⟩ <;>
    first
      | simp [evaluateWithMinimalJacobians, evaluate, hfail]
      | (intro hreq; simp [evaluateWithMinimalJacobians, evaluate, hfail, hreq])

/-- Witness for C1: the reference pinhole camera at identity poses fails to
project the landmark `(0,0,−1,1)` (depth −1), and the evaluation then yields
a zero residual and a zero requested pose-Jacobian block. -/
theorem evaluate_zero_on_projection_failure_witness :
    (testErr ((0 : ℝ), (0 : ℝ))).cameraGeometry.project
      (cameraPoint idPose ⟨0, 0, -1, 1⟩ idPose) = none ∧
    (evaluateWithMinimalJacobians (testErr ((0 : ℝ), (0 : ℝ))) idPose
      ⟨0, 0, -1, 1⟩ idPose ⟨true, true, true⟩ ⟨true, true, true⟩).residual =
      ((0 : ℝ), (0 : ℝ)) ∧
    (evaluateWithMinimalJacobians (testErr ((0 : ℝ), (0 : ℝ))) idPose
      ⟨0, 0, -1, 1⟩ idPose ⟨true, true, true⟩ ⟨true, true, true⟩).jacPose =
      some (zeroJac 7) := by
  have hfail : (testErr ((0 : ℝ), (0 : ℝ))).cameraGeometry.project
      (cameraPoint idPose ⟨0, 0, -1, 1⟩ idPose) = none := by
    rw [cameraPoint_idPose]
    exact pinhole_project_nonpos_depth 1 1 0 0 _ (by norm_num)
  have h := evaluate_zero_on_projection_failure (testErr ((0 : ℝ), (0 : ℝ)))
    idPose ⟨0, 0, -1, 1⟩ idPose ⟨true, true, true⟩ ⟨true, true, true⟩ hfail
  exact ⟨hfail, h.1, h.2.1 rfl⟩

/-- C4: `setInformation M` stores `M` (returned unchanged by
`information()`), eagerly stores the inverse as the covariance (a two-sided
inverse whenever `M` is invertible) and a Cholesky factor `S` with
`Sᵀ S = M` as the square-root information, and every subsequent evaluation
leaves all three cached fields unchanged. -/
theorem setInformation_eager_cached (e : ReprojErr) (M : M2)
    (h : isPSD2 M) :
    (setInformation e M).information = M ∧
    (setInformation e M).covariance = inv2 M ∧
    mul2 (transpose2 (setInformation e M).squareRootInformation)
      (setInformation e M).squareRootInformation = M ∧
    (det2 M ≠ 0 → mul2 M (setInformation e M).covariance = id2 ∧
      mul2 (setInformation e M).covariance M = id2) ∧
    (∀ T_WS hp T_SC req reqMin,
      (evaluateFullState (setInformation e M) T_WS hp T_SC req reqMin).2 =
        setInformation e M) := by
  refine ⟨rfl, rfl, chol2_correct M h, fun hd => ?_, fun _ _ _ _ _ => rfl⟩
  exact inv2_correct M hd

/-- Witness for C4: the identity information matrix is symmetric PSD, and
after `setInformation id2` the stored information is `id2`. -/
theorem setInformation_eager_cached_witness :
    isPSD2 id2 ∧
    (setInformation (testErr ((0 : ℝ), (0 : ℝ))) id2).information = id2 := by
  have hpsd : isPSD2 id2 := by
    unfold isPSD2 id2 det2
    norm_num
  exact ⟨hpsd, (setInformation_eager_cached _ id2 hpsd).1⟩

/-- C5: At a fixed parameter assignment with nonzero residual, replacing the
information matrix via `setInformation` makes the whitened residual exactly
the new matrix's Cholesky factor applied to the unchanged raw geometric
error (measurement pixel minus projected pixel); the unwhitened geometric
error does not depend on the information matrix. -/
theorem setInformation_rescales_residual (e : ReprojErr) (M : M2)
    (T_WS : Pose) (hp : V4) (T_SC : Pose) (req : JacRequest) (px : Vec2)
    (J : Jac 3)
    (hproj : e.cameraGeometry.project (cameraPoint T_WS hp T_SC) =
      some (px, J))
    (hnz : (evaluate e T_WS hp T_SC req).residual ≠ ((0 : ℝ), (0 : ℝ))) :
    (evaluate (setInformation e M) T_WS hp T_SC req).residual =
      app2 (chol2 M) (e.measurement.1 - px.1, e.measurement.2 - px.2) ∧
    rawError (setInformation e M) T_WS hp T_SC = rawError e T_WS hp T_SC ∧
    rawError e T_WS hp T_SC =
      some (e.measurement.1 - px.1, e.measurement.2 - px.2) := by
  refine ⟨?_, ?_, ?_⟩
  · show (evaluateWithMinimalJacobians (setInformation e M) T_WS hp T_SC
      req noJac).residual = _
    simp [evaluateWithMinimalJacobians, setInformation, hproj]
  · show (Option.map _ ((setInformation e M).cameraGeometry.project _)) = _
    rfl
  · unfold rawError
    rw [hproj]
    rfl

/-- Witness for C5: the reference pinhole camera projects the landmark
`(0,0,1,1)` to pixel `(0,0)`; with measurement `(1,0)` the residual under
identity information is `(1,0) ≠ (0,0)`, and after `setInformation` with the
matrix `[[4,0],[0,1]]` the residual equals that matrix's Cholesky factor
applied to the raw error. -/
theorem setInformation_rescales_residual_witness :
    (testErr ((1 : ℝ), (0 : ℝ))).cameraGeometry.project
      (cameraPoint idPose ⟨0, 0, 1, 1⟩ idPose) =
      some (((0 : ℝ), (0 : ℝ)), pinholeJac 1 1 ⟨0, 0, 1⟩) ∧
    (evaluate (testErr ((1 : ℝ), (0 : ℝ))) idPose ⟨0, 0, 1, 1⟩ idPose
      noJac).residual ≠ ((0 : ℝ), (0 : ℝ)) ∧
    (evaluate (setInformation (testErr ((1 : ℝ), (0 : ℝ))) ⟨4, 0, 0, 1⟩)
      idPose ⟨0, 0, 1, 1⟩ idPose noJac).residual =
      app2 (chol2 ⟨4, 0, 0, 1⟩)
        (((1 : ℝ)) - (0 : ℝ), ((0 : ℝ)) - (0 : ℝ)) := by
  have hproj : (testErr ((1 : ℝ), (0 : ℝ))).cameraGeometry.project
      (cameraPoint idPose ⟨0, 0, 1, 1⟩ idPose) =
      some (((0 : ℝ), (0 : ℝ)), pinholeJac 1 1 ⟨0, 0, 1⟩) := by
    rw [cameraPoint_idPose]
    show (if (0 : ℝ) < 1 then _ else none) = _
    rw [if_pos (by norm_num : (0 : ℝ) < 1)]
    norm_num
  have hproj2 : (pinholeCamera 1 1 0 0).project
      (cameraPoint idPose ⟨0, 0, 1, 1⟩ idPose) =
      some (((0 : ℝ), (0 : ℝ)), pinholeJac 1 1 ⟨0, 0, 1⟩) := hproj
  have hnz : (evaluate (testErr ((1 : ℝ), (0 : ℝ))) idPose ⟨0, 0, 1, 1⟩
      idPose noJac).residual ≠ ((0 : ℝ), (0 : ℝ)) := by
    simp only [evaluate, evaluateWithMinimalJacobians, testErr]
    rw [hproj2]
    simp [app2, id2, Prod.ext_iff]
  have h := setInformation_rescales_residual (testErr ((1 : ℝ), (0 : ℝ)))
    ⟨4, 0, 0, 1⟩ idPose ⟨0, 0, 1, 1⟩ idPose noJac ((0 : ℝ), (0 : ℝ))
    (pinholeJac 1 1 ⟨0, 0, 1⟩) hproj hnz
  exact ⟨hproj, hnz, h.1⟩

/-- C6: Evaluation is deterministic: evaluating a second time, from the state
in which the first evaluation left the error term, with identical parameters
and requests and no intervening setter calls, produces identical outputs
(residual and every Jacobian block). -/
theorem evaluate_deterministic (e : ReprojErr) (T_WS : Pose) (hp : V4)
    (T_SC : Pose) (req reqMin : JacRequest) :
    (evaluateFullState ((evaluateFullState e T_WS hp T_SC req reqMin).2)
      T_WS hp T_SC req reqMin).1 =
      (evaluateFullState e T_WS hp T_SC req reqMin).1 := rfl

/-- C8: Evaluation never mutates the error term: after an evaluation the
measurement, camera geometry, information, square-root information and
covariance fields all equal their prior values (parameters are read-only
inputs of the model; only the returned outputs are written). -/
theorem evaluate_no_mutation (e : ReprojErr) (T_WS : Pose) (hp : V4)
    (T_SC : Pose) (req reqMin : JacRequest) :
    (evaluateFullState e T_WS hp T_SC req reqMin).2 = e ∧
    (evaluateFullState e T_WS hp T_SC req reqMin).2.measurement =
      e.measurement ∧
    (evaluateFullState e T_WS hp T_SC req reqMin).2.cameraGeometry =
      e.cameraGeometry ∧
    (evaluateFullState e T_WS hp T_SC req reqMin).2.information =
      e.information ∧
    (evaluateFullState e T_WS hp T_SC req reqMin).2.squareRootInformation =
      e.squareRootInformation ∧
    (evaluateFullState e T_WS hp T_SC req reqMin).2.covariance =
      e.covariance :=
  ⟨rfl, rfl, rfl, rfl, rfl, rfl⟩

/-- C7: A non-symmetric-positive-semi-definite information matrix is rejected
at configuration time: both the constructor and `setInformation` report the
error before any evaluation. -/
theorem setInformation_nonPSD_fails (e : ReprojErr) (cam : CameraGeometry)
    (cameraId : Nat) (meas : Vec2) (M : M2) (h : ¬ isPSD2 M) :
    setInformationChecked e M =
      Except.error "information matrix must be symmetric positive semi-definite" ∧
    mkReprojectionError cam cameraId meas M =
      Except.error "information matrix must be symmetric positive semi-definite" := by
  constructor
  · unfold setInformationChecked
    rw [if_neg h]
  · unfold mkReprojectionError setInformationChecked
    rw [if_neg h]

/-- Witness for C7: the matrix `[[-1,0],[0,1]]` is not PSD, and both the
checked setter and the constructor reject it. -/
theorem setInformation_nonPSD_fails_witness :
    ¬ isPSD2 ⟨-1, 0, 0, 1⟩ ∧
    setInformationChecked (testErr ((0 : ℝ), (0 : ℝ))) ⟨-1, 0, 0, 1⟩ =
      Except.error "information matrix must be symmetric positive semi-definite" := by
  have h : ¬ isPSD2 ⟨-1, 0, 0, 1⟩ := by
    unfold isPSD2 det2
    norm_num
  exact ⟨h, (setInformation_nonPSD_fails (testErr ((0 : ℝ), (0 : ℝ)))
    (pinholeCamera 1 1 0 0) 0 ((0 : ℝ), (0 : ℝ)) ⟨-1, 0, 0, 1⟩ h).1⟩

end Okvis

/-! ## `ReprojectionError` declared sizes (from
`src/okvis_ceres/include/okvis/ceres/ReprojectionError.hpp`) -/

namespace Okvis.ReprojectionErrorDecl

/-- `static const int kNumResiduals = 2`. -/
def kNumResiduals : Nat := 2

/-- The block sizes declared by the base class
`::ceres::SizedCostFunction<2, 7, 4, 7>`: 7 for the camera pose, 4 for the
(homogeneous) landmark, 7 for the camera extrinsics. -/
def parameter_block_sizes : List Nat := [7, 4, 7]

/-- `residualDim()`: returns `kNumResiduals`. -/
def residualDim : Nat := kNumResiduals

/-- `parameterBlocks()`: returns `parameter_block_sizes().size()`. -/
def parameterBlocks : Nat := parameter_block_sizes.length

/-- `parameterBlockDim(parameterBlockId)`: returns
`base_t::parameter_block_sizes().at(parameterBlockId)`; `.at` fails on an
out-of-range id, modelled by `Option`. -/
def parameterBlockDim (parameterBlockId : Nat) : Option Nat :=
  parameter_block_sizes.get? parameterBlockId

end Okvis.ReprojectionErrorDecl

namespace Okvis

/-- C9: A `ReprojectionError` declares exactly 2 residuals; the declared
parameter-block sizes are 7 (camera pose), 4 (landmark, one of the sizes
3-or-4 the interface admits) and 7 (camera extrinsics); `parameterBlockDim`
reports these declared sizes and `parameterBlocks` counts 3 blocks. -/
theorem reprojectionError_declared_sizes :
    ReprojectionErrorDecl.residualDim = 2 ∧
    ReprojectionErrorDecl.parameterBlocks = 3 ∧
    ReprojectionErrorDecl.parameterBlockDim 0 = some 7 ∧
    (ReprojectionErrorDecl.parameterBlockDim 1 = some 3 ∨
      ReprojectionErrorDecl.parameterBlockDim 1 = some 4) ∧
    ReprojectionErrorDecl.parameterBlockDim 2 = some 7 := by
  refine ⟨rfl, rfl, rfl, Or.inr rfl, rfl⟩

end Okvis
